import Mathlib

/-!
Shallow embedding of the `artnet_led_controller` package (artnet2led):
the fixture registry (`fixture.py`), Art-Net packet encoding and
transmission (`artnet.py`) and LED pattern generation (`patterns.py`).

Modelling conventions:
* Python `int` is `ℤ` (or `ℕ` where the data model guarantees
  non-negativity, e.g. pixel counts and step counters);
* Python `float` arithmetic is modelled with exact rationals `ℚ`;
* operations that can raise are modelled with `Except String`;
* the UDP socket (`socket.sendto`) is modelled as an oracle function
  `String → List ℕ → Except String Unit` (target ip, datagram bytes)
  passed explicitly, so that a network failure is an `Except.error`;
* `math.sin (2 * math.pi * u)` is modelled by an explicit function
  parameter `sin2pi : ℚ → ℚ`, constrained by `|sin2pi u| ≤ 1` where a
  theorem needs the sine range.
-/

namespace Artnet2Led

/-- Python `int(x)` applied to a float/rational: truncation toward zero. -/
def truncInt (q : ℚ) : ℤ := if q < 0 then -⌊-q⌋ else ⌊q⌋

/-- Python slice `l[s:e]` for non-negative bounds `s ≤ e`.  Python clamps
both bounds to the list length, which `drop`/`take` do natively. -/
def pySlice (l : List ℤ) (s e : ℕ) : List ℤ := (l.drop s).take (e - s)

/-- Python loop `data = []` followed by
`for i in range(n): data.extend(f i)`. -/
def pyForExtend (f : ℕ → List ℤ) : ℕ → List ℤ
  | 0 => []
  | n + 1 => pyForExtend f n ++ f n

/-! ### constants.py -/

/-- `constants.ARTNET_OPCODE_DMX = 0x5000`. -/
def ARTNET_OPCODE_DMX : ℕ := 0x5000

/-- `constants.ARTNET_PROTOCOL_VERSION = 14`. -/
def ARTNET_PROTOCOL_VERSION : ℕ := 14

/-- `constants.WHITE`. -/
def WHITE : ℤ × ℤ × ℤ := (255, 255, 255)

/-- `constants.BLACK`. -/
def BLACK : ℤ × ℤ × ℤ := (0, 0, 0)

/-! ### fixture.py -/

/-- `fixture.Fixture` dataclass after `__post_init__`: `ip`,
`pixel_count`, `universe` and the resolved `name` (the default is
`f"Fixture-{ip}"`).  The unused discovery `info` dictionary is not
modelled.  Pixel counts are `ℕ`, following the data model (`pixel count
(positive integer)`). -/
structure Fixture where
  ip : String
  pixel_count : ℕ
  univ : ℤ
  name : String
deriving Repr, DecidableEq

/-- `FixtureManager.get_total_pixels`: sum of the pixel counts. -/
def get_total_pixels (fixtures : List Fixture) : ℕ :=
  (fixtures.map Fixture.pixel_count).sum

/-- `FixtureManager._get_universe_from_ip`: `int(ip.split('.')[-1])`,
falling back to the current fixture count if parsing fails.
`String.toInt?` models Python `int()` on a plain decimal literal. -/
def get_universe_from_ip (fixtures : List Fixture) (ip : String) : ℤ :=
  match ((ip.splitOn ".").getLastD "").toInt? with
  | some u => u
  | none => fixtures.length

/-- `FixtureManager.add_fixture`: resolves the universe (IP-derived when
`none`), builds the `Fixture` (whose `__post_init__` applies the name
default) and appends it to `self.fixtures`; returns the new fixture list
together with the created fixture.  The source performs no validation of
`pixel_count` or anything else. -/
def add_fixture (fixtures : List Fixture) (ip : String) (pixel_count : ℕ)
    (name : Option String) (univ : Option ℤ) : List Fixture × Fixture :=
  let u : ℤ :=
    match univ with
    | some u => u
    | none => get_universe_from_ip fixtures ip
  let f : Fixture := ⟨ip, pixel_count, u, name.getD ("Fixture-" ++ ip)⟩
  (fixtures ++ [f], f)

/-! ### patterns.py -/

/-- The loop of `BasePattern.get_fixture_data`, threading the running
`pixel_offset` over the fixtures. -/
def get_fixture_data_go (frame_data : List ℤ) :
    List Fixture → ℕ → List (Fixture × List ℤ)
  | [], _ => []
  | f :: rest, pixel_offset =>
      (f, pySlice frame_data (pixel_offset * 3)
            ((pixel_offset + f.pixel_count) * 3))
        :: get_fixture_data_go frame_data rest (pixel_offset + f.pixel_count)

/-- `BasePattern.get_fixture_data`: split a frame into per-fixture
slices, `frame_data[pixel_offset*3 : (pixel_offset+pixel_count)*3]`. -/
def get_fixture_data (fixtures : List Fixture) (frame_data : List ℤ) :
    List (Fixture × List ℤ) :=
  get_fixture_data_go frame_data fixtures 0

/-- The body of the `ChasePattern.generate_frame` loop: extend with the
color at `current_pixel`, with `BLACK` elsewhere. -/
def chaseChunk (color : ℤ × ℤ × ℤ) (current_pixel i : ℕ) : List ℤ :=
  if i = current_pixel then [color.1, color.2.1, color.2.2]
  else [BLACK.1, BLACK.2.1, BLACK.2.2]

/-- `ChasePattern.generate_frame`: one pixel at
`current_pixel = step % total_pixels` carries the color, all others are
`BLACK`. -/
def ChasePattern.generate_frame (color : ℤ × ℤ × ℤ)
    (total_pixels step : ℕ) : List ℤ :=
  pyForExtend (chaseChunk color (step % total_pixels)) total_pixels

/-- `StrobePattern.generate_frame`: `list(color) * total_pixels` when the
step is even, `list(BLACK) * total_pixels` otherwise. -/
def StrobePattern.generate_frame (color : ℤ × ℤ × ℤ)
    (total_pixels step : ℕ) : List ℤ :=
  if step % 2 = 0 then
    (List.replicate total_pixels [color.1, color.2.1, color.2.2]).flatten
  else
    (List.replicate total_pixels [BLACK.1, BLACK.2.1, BLACK.2.2]).flatten

/-- `SolidColorPattern.generate_frame`: `list(color) * total_pixels`. -/
def SolidColorPattern.generate_frame (color : ℤ × ℤ × ℤ)
    (total_pixels : ℕ) : List ℤ :=
  (List.replicate total_pixels [color.1, color.2.1, color.2.2]).flatten

/-- `RainbowPattern._hsv_to_rgb`, translated over `ℚ`: `int(...)` is
`truncInt`, the Python float sector index is an integer, and `%` on the
sector is Python integer modulo (`Int.emod`). -/
def RainbowPattern.hsv_to_rgb (hue saturation value : ℚ) : ℤ × ℤ × ℤ :=
  if saturation = 0 then
    let gray_value := truncInt (value * 255)
    (gray_value, gray_value, gray_value)
  else
    let color_sector : ℤ := truncInt (hue * 6)
    let sector_fraction : ℚ := hue * 6 - color_sector
    let min_rgb_value : ℚ := value * (1 - saturation)
    let mid_rgb_value_1 : ℚ := value * (1 - saturation * sector_fraction)
    let mid_rgb_value_2 : ℚ :=
      value * (1 - saturation * (1 - sector_fraction))
    let sector : ℤ := color_sector % 6
    let rgb : ℚ × ℚ × ℚ :=
      if sector = 0 then (value, mid_rgb_value_2, min_rgb_value)
      else if sector = 1 then (mid_rgb_value_1, value, min_rgb_value)
      else if sector = 2 then (min_rgb_value, value, mid_rgb_value_2)
      else if sector = 3 then (min_rgb_value, mid_rgb_value_1, value)
      else if sector = 4 then (mid_rgb_value_2, min_rgb_value, value)
      else (value, min_rgb_value, mid_rgb_value_1)
    (truncInt (rgb.1 * 255), truncInt (rgb.2.1 * 255),
      truncInt (rgb.2.2 * 255))

/-- `RainbowPattern.generate_frame`: per-pixel hue
`((i / total_pixels) + ((step * speed) / 100)) % 1.0` (float modulo by
`1.0` is `Int.fract`), converted at full saturation/value. -/
def rainbowChunk (speed : ℚ) (total_pixels step i : ℕ) : List ℤ :=
  let hue : ℚ :=
    Int.fract ((i : ℚ) / (total_pixels : ℚ) + ((step : ℚ) * speed) / 100)
  let rgb := RainbowPattern.hsv_to_rgb hue 1 1
  [rgb.1, rgb.2.1, rgb.2.2]

def RainbowPattern.generate_frame (speed : ℚ) (total_pixels step : ℕ) :
    List ℤ :=
  pyForExtend (rainbowChunk speed total_pixels step) total_pixels

/-- `WavePattern.generate_frame`: brightness
`0.5 + amplitude * math.sin(2 * math.pi * (position + time_offset * frequency))`
with `position = i / total_pixels`, `time_offset = step / 100`; each
color channel is scaled and truncated with `int(...)`.  The sine is the
explicit parameter `sin2pi`, where `sin2pi u` stands for
`math.sin(2 * math.pi * u)`. -/
def waveChunk (sin2pi : ℚ → ℚ) (color : ℤ × ℤ × ℤ)
    (frequency amplitude : ℚ) (total_pixels step i : ℕ) : List ℤ :=
  let position : ℚ := (i : ℚ) / (total_pixels : ℚ)
  let time_offset : ℚ := (step : ℚ) / 100
  let brightness : ℚ :=
    1 / 2 + amplitude * sin2pi (position + time_offset * frequency)
  [truncInt ((color.1 : ℚ) * brightness),
    truncInt ((color.2.1 : ℚ) * brightness),
    truncInt ((color.2.2 : ℚ) * brightness)]

def WavePattern.generate_frame (sin2pi : ℚ → ℚ) (color : ℤ × ℤ × ℤ)
    (frequency amplitude : ℚ) (total_pixels step : ℕ) : List ℤ :=
  pyForExtend (waveChunk sin2pi color frequency amplitude total_pixels step)
    total_pixels

/-! ### artnet.py -/

/-- The 18-byte result of
`struct.pack('>8sHHBBBBH', b'Art-Net\x00', ARTNET_OPCODE_DMX,
ARTNET_PROTOCOL_VERSION, 0, 0, universe & 0xFF, (universe >> 8) & 0xFF,
dataLen)`.  Two-byte fields are big-endian; Python `& 0xFF` is
`Int.land · 255` and `>> 8` is the arithmetic shift `· >>> 8`. -/
def packet_header (univ : ℤ) (dataLen : ℕ) : List ℕ :=
  [65, 114, 116, 45, 78, 101, 116, 0,
    ARTNET_OPCODE_DMX / 256, ARTNET_OPCODE_DMX % 256,
    ARTNET_PROTOCOL_VERSION / 256, ARTNET_PROTOCOL_VERSION % 256,
    0, 0,
    (Int.land univ 255).toNat, (Int.land (univ >>> 8) 255).toNat,
    dataLen / 256, dataLen % 256]

/-- Packet construction inside the `try` of `send_dmx_data` (and of each
iteration of `send_multiple_fixtures`): `struct.pack` raises
`struct.error` when the `H` length field exceeds 65535, and
`bytes(pixel_data)` raises `ValueError` unless every element lies in
`[0, 256)`. -/
def mkPacket (univ : ℤ) (pixel_data : List ℤ) :
    Except String (List ℕ) :=
  if 65536 ≤ pixel_data.length then
    Except.error "struct.error: H format requires 0 <= number <= 65535"
  else if pixel_data.all (fun x => 0 ≤ x && x < 256) then
    Except.ok (packet_header univ pixel_data.length
      ++ pixel_data.map Int.toNat)
  else
    Except.error "ValueError: bytes must be in range 0-255"

/-- The body of the `try` block of `ArtNetSender.send_dmx_data`: build
the packet, then `sock.sendto(payload, (ip, ARTNET_PORT))` via the
network oracle. -/
def sendBody (net : String → List ℕ → Except String Unit) (ip : String)
    (univ : ℤ) (pixel_data : List ℤ) : Except String Unit :=
  match mkPacket univ pixel_data with
  | Except.ok packet => net ip packet
  | Except.error e => Except.error e

/-- `ArtNetSender.send_dmx_data`: the whole body sits in a
`try/except Exception`, so the call returns `True` on success and
`False` on any caught exception, never propagating one. -/
def ArtNetSender.send_dmx_data (net : String → List ℕ → Except String Unit)
    (ip : String) (univ : ℤ) (pixel_data : List ℤ) : Bool :=
  match sendBody net ip univ pixel_data with
  | Except.ok _ => true
  | Except.error _ => false

/-- One iteration of the `send_multiple_fixtures` loop: pack the header
(identical layout) plus payload bytes and send to `fixture.ip`. -/
def trySendFixture (net : String → List ℕ → Except String Unit)
    (p : Fixture × List ℤ) : Except String Unit :=
  match mkPacket p.1.univ p.2 with
  | Except.ok packet => net p.1.ip packet
  | Except.error e => Except.error e

/-- The loop of `ArtNetSender.send_multiple_fixtures`, instrumented with
the list of (fixture, payload) pairs processed: each iteration has its
own `try/except`, which clears the `success` flag on failure and always
continues with the next fixture. -/
def send_multiple_fixtures_go (net : String → List ℕ → Except String Unit) :
    List (Fixture × List ℤ) → Bool → Bool × List (Fixture × List ℤ)
  | [], success => (success, [])
  | p :: rest, success =>
      let success2 : Bool :=
        match trySendFixture net p with
        | Except.ok _ => success
        | Except.error _ => false
      let r := send_multiple_fixtures_go net rest success2
      (r.1, p :: r.2)

/-- `ArtNetSender.send_multiple_fixtures`: starts with `success = True`
and returns the final flag. -/
def ArtNetSender.send_multiple_fixtures
    (net : String → List ℕ → Except String Unit)
    (fixtures_data : List (Fixture × List ℤ)) : Bool :=
  (send_multiple_fixtures_go net fixtures_data true).1

/-! ## Generic lemmas about the embedded loops -/

/-- The RGB triple of pixel `i` in a flat frame buffer, following the
data model (`index i corresponds to pixel i // 3`). -/
def pixelTriple (frame : List ℤ) (i : ℕ) : List ℤ :=
  (frame.drop (3 * i)).take 3

theorem pyForExtend_length (f : ℕ → List ℤ) (n : ℕ)
    (h : ∀ i, i < n → (f i).length = 3) :
    (pyForExtend f n).length = 3 * n := by
  induction n with
  | zero => rfl
  | succ n ih =>
      show (pyForExtend f n ++ f n).length = 3 * (n + 1)
      rw [List.length_append, ih (fun i hi => h i (Nat.lt_succ_of_lt hi)),
        h n (Nat.lt_succ_self n)]
      ring

theorem pyForExtend_pixel (f : ℕ → List ℤ) (n i : ℕ)
    (h : ∀ j, j < n → (f j).length = 3) (hi : i < n) :
    pixelTriple (pyForExtend f n) i = f i := by
  induction n with
  | zero => exact absurd hi (Nat.not_lt_zero i)
  | succ n ih =>
      have hlen : (pyForExtend f n).length = 3 * n :=
        pyForExtend_length f n (fun j hj => h j (Nat.lt_succ_of_lt hj))
      show ((pyForExtend f n ++ f n).drop (3 * i)).take 3 = f i
      rcases Nat.lt_succ_iff_lt_or_eq.mp hi with h1 | rfl
      · rw [List.drop_append_of_le_length (by rw [hlen]; omega),
          List.take_append_of_le_length (by rw [List.length_drop, hlen]; omega)]
        exact ih (fun j hj => h j (Nat.lt_succ_of_lt hj)) h1
      · rw [List.drop_left' hlen, ← h i (Nat.lt_succ_self i), List.take_length]

theorem mem_pyForExtend {f : ℕ → List ℤ} {n : ℕ} {x : ℤ}
    (hx : x ∈ pyForExtend f n) : ∃ i, i < n ∧ x ∈ f i := by
  induction n with
  | zero => cases hx
  | succ n ih =>
      rcases List.mem_append.mp hx with hx1 | hx1
      · obtain ⟨i, hi, hxi⟩ := ih hx1
        exact ⟨i, Nat.lt_succ_of_lt hi, hxi⟩
      · exact ⟨n, Nat.lt_succ_self n, hx1⟩

theorem filter_range_eq_single (n m : ℕ) (p : ℕ → Bool) (hm : m < n)
    (hp : ∀ i, i < n → (p i = true ↔ i = m)) :
    (List.range n).filter p = [m] := by
  induction n with
  | zero => omega
  | succ n ih =>
      rw [List.range_succ, List.filter_append]
      rcases Nat.lt_succ_iff_lt_or_eq.mp hm with h1 | rfl
      · have h2 : List.filter p [n] = [] := by
          rw [List.filter_eq_nil_iff]
          intro a ha
          rw [List.mem_singleton] at ha
          subst ha
          intro hpa
          exact absurd ((hp a (Nat.lt_succ_self a)).mp hpa) (by omega)
        rw [ih h1 (fun i hi => hp i (Nat.lt_succ_of_lt hi)), h2,
          List.append_nil]
      · have h0 : (List.range m).filter p = [] := by
          rw [List.filter_eq_nil_iff]
          intro a ha hpa
          rw [List.mem_range] at ha
          exact absurd ((hp a (Nat.lt_succ_of_lt ha)).mp hpa) (by omega)
        have h2 : List.filter p [m] = [m] := by
          have : p m = true := (hp m (Nat.lt_succ_self m)).mpr rfl
          simp [List.filter, this]
        rw [h0, h2, List.nil_append]

/-! ## C1: registry slicing is a partition -/

theorem get_fixture_data_go_fst (frame : List ℤ) (fixtures : List Fixture) :
    ∀ off, (get_fixture_data_go frame fixtures off).map Prod.fst = fixtures := by
  induction fixtures with
  | nil => intro off; rfl
  | cons f rest ih =>
      intro off
      show f :: (get_fixture_data_go frame rest (off + f.pixel_count)).map Prod.fst
        = f :: rest
      rw [ih]

theorem get_fixture_data_go_flatten (frame : List ℤ) (fixtures : List Fixture) :
    ∀ off, ((get_fixture_data_go frame fixtures off).map Prod.snd).flatten
      = (frame.drop (off * 3)).take (get_total_pixels fixtures * 3) := by
  induction fixtures with
  | nil =>
      intro off
      show ([] : List ℤ) = (frame.drop (off * 3)).take (0 * 3)
      rw [Nat.zero_mul, List.take_zero]
  | cons f rest ih =>
      intro off
      show pySlice frame (off * 3) ((off + f.pixel_count) * 3)
          ++ ((get_fixture_data_go frame rest (off + f.pixel_count)).map Prod.snd).flatten
        = (frame.drop (off * 3)).take (get_total_pixels (f :: rest) * 3)
      rw [ih (off + f.pixel_count)]
      unfold pySlice
      have e1 : (off + f.pixel_count) * 3 - off * 3 = f.pixel_count * 3 := by
        omega
      have e2 : frame.drop ((off + f.pixel_count) * 3)
          = (frame.drop (off * 3)).drop (f.pixel_count * 3) := by
        rw [List.drop_drop]; congr 1; ring
      have e3 : get_total_pixels (f :: rest) * 3
          = f.pixel_count * 3 + get_total_pixels rest * 3 := by
        simp only [get_total_pixels, List.map_cons, List.sum_cons]
        ring
      rw [e1, e2, e3, List.take_add]

theorem get_fixture_data_go_lengths (frame : List ℤ) (fixtures : List Fixture) :
    ∀ off, (off + get_total_pixels fixtures) * 3 ≤ frame.length →
      ∀ p ∈ get_fixture_data_go frame fixtures off,
        p.2.length = 3 * p.1.pixel_count := by
  induction fixtures with
  | nil => intro off _ p hp; cases hp
  | cons f rest ih =>
      intro off hoff p hp
      have htot : get_total_pixels (f :: rest)
          = f.pixel_count + get_total_pixels rest := rfl
      rcases List.mem_cons.mp hp with rfl | hp1
      · show (pySlice frame (off * 3) ((off + f.pixel_count) * 3)).length
          = 3 * f.pixel_count
        unfold pySlice
        rw [List.length_take, List.length_drop]
        rw [htot] at hoff
        have : (off + f.pixel_count) * 3 - off * 3 = f.pixel_count * 3 := by
          omega
        rw [this]
        have h1 : off * 3 + f.pixel_count * 3 ≤ frame.length := by
          calc off * 3 + f.pixel_count * 3 = (off + f.pixel_count) * 3 := by ring
          _ ≤ (off + (f.pixel_count + get_total_pixels rest)) * 3 := by
              apply Nat.mul_le_mul_right; omega
          _ ≤ frame.length := hoff
        omega
      · apply ih (off + f.pixel_count) _ p hp1
        rw [htot] at hoff
        calc (off + f.pixel_count + get_total_pixels rest) * 3
            = (off + (f.pixel_count + get_total_pixels rest)) * 3 := by ring
        _ ≤ frame.length := hoff

/-- C1: For every fixture registry and every frame buffer whose length is
3 times the registry's total pixel count, `get_fixture_data` returns one
(fixture, slice) pair per fixture in registry order, each slice has the
fixture's 3·pixel_count bytes, and concatenating the slices in order
reproduces the frame buffer exactly (so the slices are contiguous and
non-overlapping). -/
theorem get_fixture_data_partition (fixtures : List Fixture)
    (frame : List ℤ) (h : frame.length = 3 * get_total_pixels fixtures) :
    (get_fixture_data fixtures frame).map Prod.fst = fixtures ∧
    (∀ p ∈ get_fixture_data fixtures frame,
      p.2.length = 3 * p.1.pixel_count) ∧
    ((get_fixture_data fixtures frame).map Prod.snd).flatten = frame := by
  refine ⟨get_fixture_data_go_fst frame fixtures 0, ?_, ?_⟩
  · apply get_fixture_data_go_lengths frame fixtures 0
    rw [h]; omega
  · show ((get_fixture_data_go frame fixtures 0).map Prod.snd).flatten = frame
    rw [get_fixture_data_go_flatten frame fixtures 0]
    show (frame.drop (0 * 3)).take (get_total_pixels fixtures * 3) = frame
    rw [Nat.zero_mul, List.drop_zero]
    apply List.take_of_length_le
    omega

/-- The two-fixture scenario of the spec: 10 and 20 pixels. -/
def demoFixtures : List Fixture :=
  [⟨"192.168.1.10", 10, 10, "A"⟩, ⟨"192.168.1.20", 20, 20, "B"⟩]

/-- A concrete 90-byte frame buffer `[0, 1, ..., 89]`. -/
def demoFrame90 : List ℤ := (List.range 90).map (fun i => (i : ℤ))

/-- Witness for C1: the partition theorem applied to the spec's concrete
scenario, plus the scenario's slice boundaries: fixture 1 receives bytes
[0,30) and fixture 2 receives bytes [30,90). -/
theorem get_fixture_data_partition_witness :
    (demoFrame90.length = 3 * get_total_pixels demoFixtures) ∧
    ((get_fixture_data demoFixtures demoFrame90).map Prod.fst = demoFixtures ∧
      (∀ p ∈ get_fixture_data demoFixtures demoFrame90,
        p.2.length = 3 * p.1.pixel_count) ∧
      ((get_fixture_data demoFixtures demoFrame90).map Prod.snd).flatten
        = demoFrame90) ∧
    (get_fixture_data demoFixtures demoFrame90).map Prod.snd
      = [demoFrame90.take 30, demoFrame90.drop 30] := by
  refine ⟨by decide, get_fixture_data_partition demoFixtures demoFrame90 (by decide), by decide⟩

/-! ## C2: universe byte order in the header -/

theorem int_land_255 (m : ℕ) :
    Int.land (m : ℤ) 255 = ((m % 256 : ℕ) : ℤ) := by
  have h1 : Int.land (m : ℤ) 255 = ((m &&& 255 : ℕ) : ℤ) := rfl
  have h2 : m &&& 255 = m % 256 := by
    have := Nat.and_pow_two_sub_one_eq_mod m 8
    norm_num at this
    exact this
  rw [h1, h2]

theorem int_shift8_land_255 (m : ℕ) :
    Int.land ((m : ℤ) >>> 8) 255 = ((m / 256 % 256 : ℕ) : ℤ) := by
  have h0 : (m : ℤ) >>> 8 = ((m >>> 8 : ℕ) : ℤ) := Int.natCast_shiftRight m 8
  have h1 : m >>> 8 = m / 256 := by
    rw [Nat.shiftRight_eq_div_pow]
  rw [h0, h1, int_land_255]

/-- C2: for every universe in [0, 32767], the encoded header places the
universe's low byte (`universe & 0xFF`, index 14) immediately before its
high byte (`(universe >> 8) & 0xFF`, index 15); within this range the
low byte is `universe % 256` and the high byte `universe / 256`. -/
theorem packet_universe_byte_order (u : ℤ) (h0 : 0 ≤ u)
    (h1 : u ≤ 32767) (dataLen : ℕ) :
    packet_header u dataLen =
      [65, 114, 116, 45, 78, 101, 116, 0, 80, 0, 0, 14, 0, 0,
        u.toNat % 256, u.toNat / 256, dataLen / 256, dataLen % 256] := by
  obtain ⟨m, rfl⟩ := Int.eq_ofNat_of_zero_le h0
  have hm : m ≤ 32767 := by exact_mod_cast h1
  have hdiv : m / 256 % 256 = m / 256 := by omega
  simp only [packet_header, int_land_255, int_shift8_land_255,
    Int.toNat_natCast, Int.toNat_ofNat, hdiv]
  norm_num [ARTNET_OPCODE_DMX, ARTNET_PROTOCOL_VERSION]

/-- Witness for C2: the spec's scenario, universe 4660 = 0x1234 encodes
to low byte 0x34 = 52 at index 14 followed by high byte 0x12 = 18 at
index 15. -/
theorem packet_universe_byte_order_witness :
    ((0 : ℤ) ≤ 4660 ∧ (4660 : ℤ) ≤ 32767) ∧
    packet_header 4660 30 =
      [65, 114, 116, 45, 78, 101, 116, 0, 80, 0, 0, 14, 0, 0,
        0x34, 0x12, 0, 30] := by
  refine ⟨⟨by norm_num, by norm_num⟩, ?_⟩
  rw [packet_universe_byte_order 4660 (by norm_num) (by norm_num) 30]
  decide

/-! ## C3: packet structure (header is 18 bytes, not 12) -/

/-- Counterexample for C3: the packed header already has 18 bytes, so an
empty-payload packet has total length 18, not the claimed 12. -/
theorem packet_length_not_twelve :
    mkPacket 0 [] = Except.ok (packet_header 0 0) ∧
    (packet_header 0 0).length = 18 ∧ (18 : ℕ) ≠ 12 := by
  refine ⟨rfl, by decide, by decide⟩

/-- C3 (amended): an encoded packet is the fixed 18-byte header followed
by the raw payload bytes, so its total length is 18 plus the payload's
channel count; the header holds, in order, the 8-byte ASCII literal
"Art-Net" with trailing zero, the big-endian opcode 0x5000, the
big-endian protocol version 14, a zero sequence byte, a zero physical
byte, the universe low and high bytes, and the big-endian 2-byte payload
length. -/
theorem mkPacket_ok_of_valid (u : ℤ) (pd : List ℤ)
    (hlen : pd.length ≤ 65535) (hbytes : ∀ x ∈ pd, 0 ≤ x ∧ x < 256) :
    mkPacket u pd
      = Except.ok (packet_header u pd.length ++ pd.map Int.toNat) := by
  have hall : pd.all (fun x => 0 ≤ x && x < 256) = true := by
    rw [List.all_eq_true]
    intro x hx
    obtain ⟨hx0, hx1⟩ := hbytes x hx
    simp [hx0, hx1]
  rw [mkPacket, if_neg (by omega), if_pos hall]

theorem packet_wire_format (u : ℤ) (pd : List ℤ)
    (hlen : pd.length ≤ 65535) (hbytes : ∀ x ∈ pd, 0 ≤ x ∧ x < 256) :
    mkPacket u pd
        = Except.ok (packet_header u pd.length ++ pd.map Int.toNat) ∧
    (packet_header u pd.length ++ pd.map Int.toNat).length
        = 18 + pd.length ∧
    packet_header u pd.length
        = [65, 114, 116, 45, 78, 101, 116, 0] ++ [80, 0] ++ [0, 14]
          ++ [0] ++ [0]
          ++ [(Int.land u 255).toNat, (Int.land (u >>> 8) 255).toNat]
          ++ [pd.length / 256, pd.length % 256] := by
  refine ⟨mkPacket_ok_of_valid u pd hlen hbytes, ?_, ?_⟩
  · rw [List.length_append, List.length_map]
    norm_num [packet_header]
  · norm_num [packet_header, ARTNET_OPCODE_DMX, ARTNET_PROTOCOL_VERSION]

/-- Witness for C3's amended theorem at a concrete packet. -/
theorem packet_wire_format_witness :
    (([7, 8, 9] : List ℤ).length ≤ 65535 ∧
      ∀ x ∈ ([7, 8, 9] : List ℤ), 0 ≤ x ∧ x < 256) ∧
    mkPacket 1 [7, 8, 9]
        = Except.ok (packet_header 1 3 ++ [7, 8, 9]) ∧
    (packet_header 1 3 ++ ([7, 8, 9] : List ℤ).map Int.toNat).length
        = 18 + 3 := by
  have h := packet_wire_format 1 [7, 8, 9] (by decide) (by decide)
  exact ⟨⟨by decide, by decide⟩,
    by rw [h.1]; exact congrArg Except.ok (by decide), h.2.1⟩

/-! ## C8: add_fixture performs no pixel-count validation -/

/-- Counterexample for C8: adding a fixture with `pixel_count = 0`
(i.e. ≤ 0) raises no configuration error, and the fixture IS appended to
the registry. -/
theorem add_fixture_accepts_zero_pixels :
    ((add_fixture [] "1.2.3.4" 0 none (some 7)).1).length = 1 ∧
    ((add_fixture [] "1.2.3.4" 0 none (some 7)).2).pixel_count = 0 :=
  ⟨rfl, rfl⟩

/-- C8 (amended): `add_fixture` validates nothing — for every input, any
pixel count (0 included), it unconditionally appends exactly one fixture
carrying the given pixel count and ip; there is no error path in the
source. -/
theorem add_fixture_no_validation (fixtures : List Fixture) (ip : String)
    (pixel_count : ℕ) (name : Option String) (univ : Option ℤ) :
    (add_fixture fixtures ip pixel_count name univ).1
        = fixtures ++ [(add_fixture fixtures ip pixel_count name univ).2] ∧
    (add_fixture fixtures ip pixel_count name univ).2.pixel_count
        = pixel_count ∧
    (add_fixture fixtures ip pixel_count name univ).2.ip = ip :=
  ⟨rfl, rfl, rfl⟩

/-! ## C5: batch send attempts every fixture and aggregates success -/

/-- Whether one iteration of the `send_multiple_fixtures` loop succeeds
(packs and sends without an exception). -/
def sendOk (net : String → List ℕ → Except String Unit)
    (p : Fixture × List ℤ) : Bool :=
  match trySendFixture net p with
  | Except.ok _ => true
  | Except.error _ => false

theorem send_multiple_fixtures_go_spec
    (net : String → List ℕ → Except String Unit) :
    ∀ (fd : List (Fixture × List ℤ)) (s : Bool),
      (send_multiple_fixtures_go net fd s).2 = fd ∧
      (send_multiple_fixtures_go net fd s).1
        = (s && fd.all (sendOk net)) := by
  intro fd
  induction fd with
  | nil => intro s; exact ⟨rfl, by simp [send_multiple_fixtures_go]⟩
  | cons p rest ih =>
      intro s
      have hs2 : (match trySendFixture net p with
          | Except.ok _ => s
          | Except.error _ => false) = (s && sendOk net p) := by
        unfold sendOk
        cases trySendFixture net p with
        | ok v => simp
        | error e => simp
      constructor
      · show p :: (send_multiple_fixtures_go net rest _).2 = p :: rest
        rw [(ih _).1]
      · show (send_multiple_fixtures_go net rest _).1 = _
        rw [(ih _).2, hs2, List.all_cons, Bool.and_assoc]

theorem sendOk_iff (net : String → List ℕ → Except String Unit)
    (p : Fixture × List ℤ) :
    sendOk net p = true ↔ trySendFixture net p = Except.ok () := by
  unfold sendOk
  cases h : trySendFixture net p with
  | ok v => cases v; simp
  | error e => simp

/-- The spec's scenario network: the UDP send to `10.0.0.2` raises a
network error, all other sends succeed. -/
def scenarioNet : String → List ℕ → Except String Unit :=
  fun ip _ =>
    if ip = "10.0.0.2" then Except.error "Network is unreachable"
    else Except.ok ()

/-- The spec's scenario batch: three fixtures with small payloads. -/
def scenarioBatch : List (Fixture × List ℤ) :=
  [(⟨"10.0.0.1", 1, 1, "A"⟩, [1, 2, 3]),
    (⟨"10.0.0.2", 1, 2, "B"⟩, [4, 5, 6]),
    (⟨"10.0.0.3", 1, 3, "C"⟩, [7, 8, 9])]

/-- C5: `send_multiple_fixtures` processes every (fixture, payload) pair
of the batch regardless of earlier failures, and returns `True` iff
every individual send succeeded.  In particular, in the scenario where
the second of three UDP sends raises a network error, the function
returns `False` but all three fixtures were attempted. -/
theorem send_multiple_attempts_all :
    (∀ (net : String → List ℕ → Except String Unit)
        (fd : List (Fixture × List ℤ)),
      (send_multiple_fixtures_go net fd true).2 = fd ∧
      (ArtNetSender.send_multiple_fixtures net fd = true ↔
        ∀ p ∈ fd, trySendFixture net p = Except.ok ())) ∧
    (trySendFixture scenarioNet (⟨"10.0.0.2", 1, 2, "B"⟩, [4, 5, 6])
        = Except.error "Network is unreachable" ∧
      ArtNetSender.send_multiple_fixtures scenarioNet scenarioBatch = false ∧
      (send_multiple_fixtures_go scenarioNet scenarioBatch true).2
        = scenarioBatch) := by
  constructor
  · intro net fd
    refine ⟨(send_multiple_fixtures_go_spec net fd true).1, ?_⟩
    show (send_multiple_fixtures_go net fd true).1 = true ↔ _
    rw [(send_multiple_fixtures_go_spec net fd true).2, Bool.true_and,
      List.all_eq_true]
    constructor
    · intro h p hp
      exact (sendOk_iff net p).mp (h p hp)
    · intro h p hp
      exact (sendOk_iff net p).mpr (h p hp)
  · exact ⟨rfl, rfl, rfl⟩

/-! ## C10: send_dmx_data never propagates an exception -/

theorem mkPacket_error_of_bad_byte (u : ℤ) (pd : List ℤ) (x : ℤ)
    (hx : x ∈ pd) (hbad : x < 0 ∨ 255 < x) :
    ∃ e, mkPacket u pd = Except.error e := by
  unfold mkPacket
  split
  · exact ⟨_, rfl⟩
  · have hall : ¬pd.all (fun x => 0 ≤ x && x < 256) = true := by
      rw [List.all_eq_true]
      intro hforall
      have h := hforall x hx
      simp only [Bool.and_eq_true, decide_eq_true_eq] at h
      omega
    rw [if_neg hall]
    exact ⟨_, rfl⟩

theorem mkPacket_error_of_long (u : ℤ) (pd : List ℤ)
    (hlen : 65536 ≤ pd.length) :
    ∃ e, mkPacket u pd = Except.error e := by
  unfold mkPacket
  rw [if_pos hlen]
  exact ⟨_, rfl⟩

theorem mkPacket_ok_shape (u : ℤ) (pd : List ℤ) (p : List ℕ)
    (h : mkPacket u pd = Except.ok p) :
    p = packet_header u pd.length ++ pd.map Int.toNat := by
  unfold mkPacket at h
  split at h
  · cases h
  · split at h
    · cases h; rfl
    · cases h

theorem send_dmx_eq_true_iff (net : String → List ℕ → Except String Unit)
    (ip : String) (u : ℤ) (pd : List ℤ) :
    ArtNetSender.send_dmx_data net ip u pd = true
      ↔ sendBody net ip u pd = Except.ok () := by
  unfold ArtNetSender.send_dmx_data
  cases h : sendBody net ip u pd with
  | ok v => cases v; simp
  | error e => simp

theorem send_dmx_false_of_mkPacket_error
    (net : String → List ℕ → Except String Unit) (ip : String) (u : ℤ)
    (pd : List ℤ) (e : String) (h : mkPacket u pd = Except.error e) :
    ArtNetSender.send_dmx_data net ip u pd = false := by
  unfold ArtNetSender.send_dmx_data sendBody
  rw [h]

/-- C10: `send_dmx_data` reports every failure only through its `False`
return value and never lets an exception escape: it returns `True`
exactly when the body ran without an exception, every body exception
yields `False`, and in particular an out-of-range byte value
(`bytes(...)` raising `ValueError`), a payload too long for the 16-bit
length field (`struct.pack` raising `struct.error`), and a failing
`sendto` (unreachable or invalid address) all yield `False`. -/
theorem send_dmx_never_raises
    (net : String → List ℕ → Except String Unit) (ip : String) (u : ℤ)
    (pd : List ℤ) :
    (ArtNetSender.send_dmx_data net ip u pd = true
      ↔ sendBody net ip u pd = Except.ok ()) ∧
    (∀ e, sendBody net ip u pd = Except.error e
      → ArtNetSender.send_dmx_data net ip u pd = false) ∧
    ((∃ x ∈ pd, x < 0 ∨ 255 < x)
      → ArtNetSender.send_dmx_data net ip u pd = false) ∧
    (65536 ≤ pd.length
      → ArtNetSender.send_dmx_data net ip u pd = false) ∧
    (∀ e, net ip (packet_header u pd.length ++ pd.map Int.toNat)
        = Except.error e
      → ArtNetSender.send_dmx_data net ip u pd = false) := by
  refine ⟨send_dmx_eq_true_iff net ip u pd, ?_, ?_, ?_, ?_⟩
  · intro e he
    unfold ArtNetSender.send_dmx_data
    rw [he]
  · rintro ⟨x, hx, hbad⟩
    obtain ⟨e, he⟩ := mkPacket_error_of_bad_byte u pd x hx hbad
    exact send_dmx_false_of_mkPacket_error net ip u pd e he
  · intro hlen
    obtain ⟨e, he⟩ := mkPacket_error_of_long u pd hlen
    exact send_dmx_false_of_mkPacket_error net ip u pd e he
  · intro e he
    cases h : mkPacket u pd with
    | ok p =>
        have hp := mkPacket_ok_shape u pd p h
        have hbody : sendBody net ip u pd
            = net ip (packet_header u pd.length ++ pd.map Int.toNat) := by
          unfold sendBody
          rw [h, hp]
        unfold ArtNetSender.send_dmx_data
        rw [hbody, he]
    | error e2 => exact send_dmx_false_of_mkPacket_error net ip u pd e2 h

/-- A network oracle whose sends always succeed. -/
def okNet : String → List ℕ → Except String Unit := fun _ _ => Except.ok ()

/-- A network oracle whose sends always raise (unreachable host). -/
def downNet : String → List ℕ → Except String Unit :=
  fun _ _ => Except.error "Network is unreachable"

/-- Witness for C10: an out-of-range byte and an unreachable host both
come back as a `False` return, not an exception. -/
theorem send_dmx_never_raises_witness :
    ArtNetSender.send_dmx_data okNet "10.0.0.5" 1 [300] = false ∧
    ArtNetSender.send_dmx_data downNet "10.0.0.5" 1 [0, 0, 0] = false := by
  constructor
  · exact (send_dmx_never_raises okNet "10.0.0.5" 1 [300]).2.2.1
      ⟨300, by simp, Or.inr (by norm_num)⟩
  · exact (send_dmx_never_raises downNet "10.0.0.5" 1 [0, 0, 0]).2.2.2.2
      "Network is unreachable" rfl

/-! ## C4: the 512-channel ceiling is not enforced -/

set_option maxRecDepth 4000 in
/-- Counterexample for C4: a 513-channel payload is not rejected — it is
encoded and transmitted, and the call reports success. -/
theorem oversize_payload_sent_ok :
    512 < (List.replicate 513 (0 : ℤ)).length ∧
    ArtNetSender.send_dmx_data okNet "10.0.0.9" 0
      (List.replicate 513 (0 : ℤ)) = true := by
  constructor
  · rw [List.length_replicate]
    norm_num
  · rfl

/-- C4 (amended): `send_dmx_data` never checks the 512-channel DMX
ceiling.  A payload of 513–65535 in-range channels is encoded and
transmitted as success when the network send succeeds; only a byte value
outside 0–255 (raising in `bytes(...)`) or a payload length above 65535
(overflowing the 16-bit length field in `struct.pack`) make the call
fail, and those failures are returned as `False`, not raised. -/
theorem send_dmx_validation_behavior :
    (∀ (net : String → List ℕ → Except String Unit) (ip : String) (u : ℤ)
        (pd : List ℤ),
      512 < pd.length → pd.length ≤ 65535 →
      (∀ x ∈ pd, 0 ≤ x ∧ x < 256) →
      net ip (packet_header u pd.length ++ pd.map Int.toNat)
          = Except.ok () →
      ArtNetSender.send_dmx_data net ip u pd = true) ∧
    (∀ (net : String → List ℕ → Except String Unit) (ip : String) (u : ℤ)
        (pd : List ℤ) (x : ℤ), x ∈ pd → (x < 0 ∨ 255 < x) →
      ArtNetSender.send_dmx_data net ip u pd = false) ∧
    (∀ (net : String → List ℕ → Except String Unit) (ip : String) (u : ℤ)
        (pd : List ℤ), 65536 ≤ pd.length →
      ArtNetSender.send_dmx_data net ip u pd = false) := by
  refine ⟨?_, ?_, ?_⟩
  · intro net ip u pd _ hlen hbytes hnet
    rw [send_dmx_eq_true_iff]
    unfold sendBody
    rw [mkPacket_ok_of_valid u pd hlen hbytes]
    exact hnet
  · intro net ip u pd x hx hbad
    obtain ⟨e, he⟩ := mkPacket_error_of_bad_byte u pd x hx hbad
    exact send_dmx_false_of_mkPacket_error net ip u pd e he
  · intro net ip u pd hlen
    obtain ⟨e, he⟩ := mkPacket_error_of_long u pd hlen
    exact send_dmx_false_of_mkPacket_error net ip u pd e he

/-- Witness for C4's amended theorem: a 600-channel payload goes through
as success; a bad byte and a 70000-channel payload come back `False`. -/
theorem send_dmx_validation_behavior_witness :
    ArtNetSender.send_dmx_data okNet "10.0.0.9" 3
      (List.replicate 600 (1 : ℤ)) = true ∧
    ArtNetSender.send_dmx_data okNet "10.0.0.9" 3 [256] = false ∧
    ArtNetSender.send_dmx_data okNet "10.0.0.9" 3
      (List.replicate 70000 (0 : ℤ)) = false := by
  refine ⟨?_, ?_, ?_⟩
  · apply send_dmx_validation_behavior.1 okNet "10.0.0.9" 3 _
      (by rw [List.length_replicate]; norm_num)
      (by rw [List.length_replicate]; norm_num) _ rfl
    intro x hx
    rw [List.mem_replicate] at hx
    rw [hx.2]
    exact ⟨by norm_num, by norm_num⟩
  · exact send_dmx_validation_behavior.2.1 okNet "10.0.0.9" 3 [256] 256
      (by simp) (Or.inr (by norm_num))
  · exact send_dmx_validation_behavior.2.2 okNet "10.0.0.9" 3
      (List.replicate 70000 (0 : ℤ)) (by rw [List.length_replicate]; norm_num)

/-! ## C6: the Chase frame lights exactly one pixel -/

theorem chaseChunk_length (color : ℤ × ℤ × ℤ) (m : ℕ) :
    ∀ j, (chaseChunk color m j).length = 3 := by
  intro j
  unfold chaseChunk
  split <;> rfl

theorem chase_pixelTriple (color : ℤ × ℤ × ℤ) (total_pixels step i : ℕ)
    (hi : i < total_pixels) :
    pixelTriple (ChasePattern.generate_frame color total_pixels step) i
      = if i = step % total_pixels then [color.1, color.2.1, color.2.2]
        else [0, 0, 0] := by
  unfold ChasePattern.generate_frame
  rw [pyForExtend_pixel _ _ _
    (fun j _ => chaseChunk_length color (step % total_pixels) j) hi]
  unfold chaseChunk
  split <;> rfl

/-- C6: for every step (with a non-black chase color and at least one
pixel), the Chase frame holds the color exactly at pixel
`step % total_pixels` and black everywhere else; filtering the pixel
indices for non-black triples yields exactly `[step % total_pixels]`. -/
theorem chase_exactly_one_lit (color : ℤ × ℤ × ℤ) (total_pixels step : ℕ)
    (htp : 0 < total_pixels) (hc : color ≠ BLACK) :
    (∀ i, i < total_pixels →
      pixelTriple (ChasePattern.generate_frame color total_pixels step) i
        = if i = step % total_pixels then [color.1, color.2.1, color.2.2]
          else [0, 0, 0]) ∧
    (List.range total_pixels).filter
        (fun i => decide (pixelTriple
          (ChasePattern.generate_frame color total_pixels step) i
            ≠ [0, 0, 0]))
      = [step % total_pixels] := by
  have hcl : ([color.1, color.2.1, color.2.2] : List ℤ) ≠ [0, 0, 0] := by
    intro hEq
    apply hc
    simp only [List.cons.injEq, and_true] at hEq
    obtain ⟨h1, h2, h3⟩ := hEq
    obtain ⟨a, b, c⟩ := color
    simp only at h1 h2 h3
    rw [BLACK, h1, h2, h3]
  refine ⟨fun i hi => chase_pixelTriple color total_pixels step i hi, ?_⟩
  apply filter_range_eq_single _ _ _ (Nat.mod_lt step htp)
  intro i hi
  rw [decide_eq_true_iff]
  rw [chase_pixelTriple color total_pixels step i hi]
  by_cases him : i = step % total_pixels
  · rw [if_pos him]
    exact ⟨fun _ => him, fun _ => hcl⟩
  · rw [if_neg him]
    exact ⟨fun hne => absurd rfl hne, fun h => absurd h him⟩

/-- Witness for C6: five white pixels at step 7 light only pixel 2. -/
theorem chase_exactly_one_lit_witness :
    ((0 : ℕ) < 5 ∧ WHITE ≠ BLACK) ∧
    (List.range 5).filter
        (fun i => decide (pixelTriple
          (ChasePattern.generate_frame WHITE 5 7) i ≠ [0, 0, 0]))
      = [7 % 5] := by
  exact ⟨⟨by norm_num, by decide⟩,
    (chase_exactly_one_lit WHITE 5 7 (by norm_num) (by decide)).2⟩

/-! ## C9: HSV→RGB channel quantization -/

/-- Python `round()`: round half to even. -/
def roundHalfEven (q : ℚ) : ℤ :=
  if Int.fract q < 1 / 2 then ⌊q⌋
  else if 1 / 2 < Int.fract q then ⌊q⌋ + 1
  else if ⌊q⌋ % 2 = 0 then ⌊q⌋ else ⌊q⌋ + 1

/-- Modelled from the spec: the standard full-saturation/value HSV
sector decomposition — sector index `⌊6·hue⌋ mod 6`, fraction
`f = 6·hue − ⌊6·hue⌋`, per-sector components (1,f,0), (1−f,1,0),
(0,1,f), (0,1−f,1), (f,0,1), (1,0,1−f). -/
def hsvSectorComponents (hue : ℚ) : ℚ × ℚ × ℚ :=
  let k : ℤ := ⌊hue * 6⌋ % 6
  let f : ℚ := hue * 6 - ⌊hue * 6⌋
  if k = 0 then (1, f, 0)
  else if k = 1 then (1 - f, 1, 0)
  else if k = 2 then (0, 1, f)
  else if k = 3 then (0, 1 - f, 1)
  else if k = 4 then (f, 0, 1)
  else (1, 0, 1 - f)

/-- Modelled from the spec: output channel `round(component × 255)`,
per channel, independently. -/
def hsvSpecRound (hue : ℚ) : ℤ × ℤ × ℤ :=
  (roundHalfEven ((hsvSectorComponents hue).1 * 255),
    roundHalfEven ((hsvSectorComponents hue).2.1 * 255),
    roundHalfEven ((hsvSectorComponents hue).2.2 * 255))

/-- The truncating variant, `int(component × 255)` per channel. -/
def hsvSpecTrunc (hue : ℚ) : ℤ × ℤ × ℤ :=
  (truncInt ((hsvSectorComponents hue).1 * 255),
    truncInt ((hsvSectorComponents hue).2.1 * 255),
    truncInt ((hsvSectorComponents hue).2.2 * 255))

theorem truncInt_of_nonneg (q : ℚ) (h : 0 ≤ q) : truncInt q = ⌊q⌋ := by
  unfold truncInt
  rw [if_neg (not_lt.mpr h)]

theorem hsv_trunc_eq (hue : ℚ) (h0 : 0 ≤ hue) (h1 : hue ≤ 1) :
    RainbowPattern.hsv_to_rgb hue 1 1 = hsvSpecTrunc hue := by
  have h6 : (0 : ℚ) ≤ hue * 6 := by positivity
  have htr : truncInt (hue * 6) = ⌊hue * 6⌋ := truncInt_of_nonneg _ h6
  have hk0 : 0 ≤ ⌊hue * 6⌋ := Int.floor_nonneg.mpr h6
  have hk6 : ⌊hue * 6⌋ ≤ 6 := by
    have h66 : hue * 6 ≤ 6 := by nlinarith
    calc ⌊hue * 6⌋ ≤ ⌊(6 : ℚ)⌋ := Int.floor_le_floor h66
      _ = 6 := by norm_num
  have hcase : ⌊hue * 6⌋ = 0 ∨ ⌊hue * 6⌋ = 1 ∨ ⌊hue * 6⌋ = 2 ∨
      ⌊hue * 6⌋ = 3 ∨ ⌊hue * 6⌋ = 4 ∨ ⌊hue * 6⌋ = 5 ∨ ⌊hue * 6⌋ = 6 := by
    omega
  unfold RainbowPattern.hsv_to_rgb hsvSpecTrunc hsvSectorComponents
  rw [if_neg (by norm_num : (1 : ℚ) ≠ 0)]
  rcases hcase with h | h | h | h | h | h | h <;>
    simp only [htr, h] <;> norm_num

theorem hsvSectorComponents_range (hue : ℚ) :
    (0 ≤ (hsvSectorComponents hue).1 ∧ (hsvSectorComponents hue).1 ≤ 1) ∧
    (0 ≤ (hsvSectorComponents hue).2.1
      ∧ (hsvSectorComponents hue).2.1 ≤ 1) ∧
    (0 ≤ (hsvSectorComponents hue).2.2
      ∧ (hsvSectorComponents hue).2.2 ≤ 1) := by
  have hf0 : (0 : ℚ) ≤ hue * 6 - ⌊hue * 6⌋ := by
    have := Int.fract_nonneg (hue * 6)
    rwa [Int.fract] at this
  have hf1 : hue * 6 - ⌊hue * 6⌋ < 1 := by
    have := Int.fract_lt_one (hue * 6)
    rwa [Int.fract] at this
  simp only [hsvSectorComponents]
  split_ifs <;>
    refine ⟨⟨?_, ?_⟩, ⟨?_, ?_⟩, ⟨?_, ?_⟩⟩ <;> dsimp only <;> linarith

theorem truncInt_byte (q : ℚ) (h0 : 0 ≤ q) (h1 : q ≤ 1) :
    0 ≤ truncInt (q * 255) ∧ truncInt (q * 255) ≤ 255 := by
  have h2 : (0 : ℚ) ≤ q * 255 := by positivity
  rw [truncInt_of_nonneg _ h2]
  refine ⟨Int.floor_nonneg.mpr h2, ?_⟩
  calc ⌊q * 255⌋ ≤ ⌊(255 : ℚ)⌋ := Int.floor_le_floor (by nlinarith)
    _ = 255 := by norm_num

theorem hsv_to_rgb_byte (hue : ℚ) (h0 : 0 ≤ hue) (h1 : hue ≤ 1) :
    (0 ≤ (RainbowPattern.hsv_to_rgb hue 1 1).1
      ∧ (RainbowPattern.hsv_to_rgb hue 1 1).1 ≤ 255) ∧
    (0 ≤ (RainbowPattern.hsv_to_rgb hue 1 1).2.1
      ∧ (RainbowPattern.hsv_to_rgb hue 1 1).2.1 ≤ 255) ∧
    (0 ≤ (RainbowPattern.hsv_to_rgb hue 1 1).2.2
      ∧ (RainbowPattern.hsv_to_rgb hue 1 1).2.2 ≤ 255) := by
  rw [hsv_trunc_eq hue h0 h1]
  obtain ⟨⟨a0, a1⟩, ⟨b0, b1⟩, ⟨c0, c1⟩⟩ := hsvSectorComponents_range hue
  exact ⟨truncInt_byte _ a0 a1, truncInt_byte _ b0 b1, truncInt_byte _ c0 c1⟩

/-- Counterexample for C9: at hue 1/12 (sector 0, fraction 1/2) the code
computes the green channel with `int(0.5 * 255) = 127`, while
`round(0.5 * 255) = 128`; the spec's per-channel rounding does not match
the code's truncation. -/
theorem hsv_truncates_not_rounds :
    RainbowPattern.hsv_to_rgb (1 / 12) 1 1 = (255, 127, 0) ∧
    hsvSpecRound (1 / 12) = (255, 128, 0) ∧
    ((255, 127, 0) : ℤ × ℤ × ℤ) ≠ ((255, 128, 0) : ℤ × ℤ × ℤ) := by
  have hfloor : ⌊(1 / 12 * 6 : ℚ)⌋ = 0 := by norm_num
  have hsc : hsvSectorComponents (1 / 12) = (1, 1 / 2, 0) := by
    simp only [hsvSectorComponents, hfloor]
    norm_num
  have h2 : hsvSpecTrunc (1 / 12) = (255, 127, 0) := by
    unfold hsvSpecTrunc
    rw [hsc]
    have e1 : truncInt ((1 : ℚ) * 255) = 255 := by
      rw [truncInt_of_nonneg _ (by norm_num)]
      norm_num
    have e2 : truncInt ((1 / 2 : ℚ) * 255) = 127 := by
      rw [truncInt_of_nonneg _ (by norm_num)]
      norm_num
    have e3 : truncInt ((0 : ℚ) * 255) = 0 := by
      rw [truncInt_of_nonneg _ (by norm_num)]
      norm_num
    rw [e1, e2, e3]
  have h3 : hsvSpecRound (1 / 12) = (255, 128, 0) := by
    unfold hsvSpecRound roundHalfEven
    rw [hsc]
    norm_num [Int.fract]
  exact ⟨by rw [hsv_trunc_eq (1 / 12) (by norm_num) (by norm_num), h2],
    h3, by decide⟩

/-- C9 (amended): for every hue in [0,1] at full saturation and value,
the code's HSV→RGB conversion produces each output channel as
`int(component × 255)` — truncation toward zero, not rounding —
computed independently per channel from the standard sector
decomposition, with the sector index taken mod 6 (absorbing the
hue = 1.0 edge case). -/
theorem hsv_matches_trunc_spec (hue : ℚ) (h0 : 0 ≤ hue) (h1 : hue ≤ 1) :
    RainbowPattern.hsv_to_rgb hue 1 1 = hsvSpecTrunc hue :=
  hsv_trunc_eq hue h0 h1

/-- Witness for C9's amended theorem at hue 5/12. -/
theorem hsv_matches_trunc_spec_witness :
    ((0 : ℚ) ≤ 5 / 12 ∧ (5 / 12 : ℚ) ≤ 1) ∧
    RainbowPattern.hsv_to_rgb (5 / 12) 1 1 = hsvSpecTrunc (5 / 12) :=
  ⟨⟨by norm_num, by norm_num⟩,
    hsv_matches_trunc_spec (5 / 12) (by norm_num) (by norm_num)⟩

/-! ## C7: frame length and byte-range invariants -/

/-- The frame-buffer invariant of the data model: length
`3 × total_pixels` and every element a byte in [0,255]. -/
def frameOK (frame : List ℤ) (total_pixels : ℕ) : Prop :=
  frame.length = 3 * total_pixels ∧ ∀ x ∈ frame, 0 ≤ x ∧ x ≤ 255

/-- A color whose three channels are bytes in [0,255]. -/
def byteColor (c : ℤ × ℤ × ℤ) : Prop :=
  (0 ≤ c.1 ∧ c.1 ≤ 255) ∧ (0 ≤ c.2.1 ∧ c.2.1 ≤ 255) ∧
    (0 ≤ c.2.2 ∧ c.2.2 ≤ 255)

theorem truncInt_bounds (q : ℚ) (h0 : 0 ≤ q) (h1 : q ≤ 255) :
    0 ≤ truncInt q ∧ truncInt q ≤ 255 := by
  rw [truncInt_of_nonneg _ h0]
  refine ⟨Int.floor_nonneg.mpr h0, ?_⟩
  calc ⌊q⌋ ≤ ⌊(255 : ℚ)⌋ := Int.floor_le_floor h1
    _ = 255 := by norm_num

theorem flatten_replicate_length (n : ℕ) (a b c : ℤ) :
    ((List.replicate n [a, b, c]).flatten).length = 3 * n := by
  rw [List.length_flatten, List.map_replicate]
  show (List.replicate n 3).sum = 3 * n
  rw [List.sum_const_nat]
  ring

theorem mem_flatten_replicate {n : ℕ} {a b c x : ℤ}
    (hx : x ∈ (List.replicate n [a, b, c]).flatten) :
    x = a ∨ x = b ∨ x = c := by
  rw [List.mem_flatten] at hx
  obtain ⟨l, hl, hxl⟩ := hx
  rw [List.mem_replicate] at hl
  rw [hl.2] at hxl
  simpa using hxl

theorem solid_frameOK (c : ℤ × ℤ × ℤ) (n : ℕ) (hc : byteColor c) :
    frameOK (SolidColorPattern.generate_frame c n) n := by
  obtain ⟨ha, hb, hc2⟩ := hc
  constructor
  · exact flatten_replicate_length n _ _ _
  · intro x hx
    unfold SolidColorPattern.generate_frame at hx
    rcases mem_flatten_replicate hx with rfl | rfl | rfl
    exacts [ha, hb, hc2]

theorem chase_frameOK (c : ℤ × ℤ × ℤ) (n step : ℕ) (hc : byteColor c) :
    frameOK (ChasePattern.generate_frame c n step) n := by
  obtain ⟨ha, hb, hc2⟩ := hc
  constructor
  · exact pyForExtend_length _ n (fun j _ => chaseChunk_length c _ j)
  · intro x hx
    unfold ChasePattern.generate_frame at hx
    obtain ⟨i, _, hxi⟩ := mem_pyForExtend hx
    unfold chaseChunk at hxi
    split at hxi
    · rcases (by simpa using hxi : x = c.1 ∨ x = c.2.1 ∨ x = c.2.2)
        with rfl | rfl | rfl
      exacts [ha, hb, hc2]
    · rcases (by simpa [BLACK] using hxi : x = 0 ∨ x = 0 ∨ x = 0)
        with rfl | rfl | rfl <;> exact ⟨le_refl 0, by norm_num⟩

theorem strobe_frameOK (c : ℤ × ℤ × ℤ) (n step : ℕ) (hc : byteColor c) :
    frameOK (StrobePattern.generate_frame c n step) n := by
  obtain ⟨ha, hb, hc2⟩ := hc
  unfold StrobePattern.generate_frame
  split_ifs
  · refine ⟨flatten_replicate_length n _ _ _, ?_⟩
    intro x hx
    rcases mem_flatten_replicate hx with rfl | rfl | rfl
    exacts [ha, hb, hc2]
  · refine ⟨flatten_replicate_length n _ _ _, ?_⟩
    intro x hx
    rcases mem_flatten_replicate hx with rfl | rfl | rfl <;>
      exact ⟨by norm_num [BLACK], by norm_num [BLACK]⟩

theorem rainbow_frameOK (speed : ℚ) (n step : ℕ) :
    frameOK (RainbowPattern.generate_frame speed n step) n := by
  constructor
  · exact pyForExtend_length _ n (fun j _ => rfl)
  · intro x hx
    unfold RainbowPattern.generate_frame at hx
    obtain ⟨i, _, hxi⟩ := mem_pyForExtend hx
    unfold rainbowChunk at hxi
    set hue : ℚ :=
      Int.fract ((i : ℚ) / (n : ℚ) + ((step : ℚ) * speed) / 100) with hhue
    have h0 : 0 ≤ hue := Int.fract_nonneg _
    have h1 : hue ≤ 1 := le_of_lt (Int.fract_lt_one _)
    obtain ⟨hr, hg, hbl⟩ := hsv_to_rgb_byte hue h0 h1
    rcases (by simpa using hxi :
        x = (RainbowPattern.hsv_to_rgb hue 1 1).1
        ∨ x = (RainbowPattern.hsv_to_rgb hue 1 1).2.1
        ∨ x = (RainbowPattern.hsv_to_rgb hue 1 1).2.2)
      with rfl | rfl | rfl
    exacts [hr, hg, hbl]

theorem wave_frameOK (sin2pi : ℚ → ℚ) (c : ℤ × ℤ × ℤ)
    (frequency amplitude : ℚ) (n step : ℕ) (hc : byteColor c)
    (hsin : ∀ u, -1 ≤ sin2pi u ∧ sin2pi u ≤ 1)
    (hamp0 : 0 ≤ amplitude) (hamp1 : amplitude ≤ 1 / 2) :
    frameOK (WavePattern.generate_frame sin2pi c frequency amplitude n step)
      n := by
  obtain ⟨ha, hb, hc2⟩ := hc
  constructor
  · exact pyForExtend_length _ n (fun j _ => rfl)
  · intro x hx
    unfold WavePattern.generate_frame at hx
    obtain ⟨i, _, hxi⟩ := mem_pyForExtend hx
    unfold waveChunk at hxi
    simp only [List.mem_cons, List.not_mem_nil, or_false] at hxi
    set b : ℚ := 1 / 2 + amplitude
      * sin2pi ((i : ℚ) / (n : ℚ) + (step : ℚ) / 100 * frequency) with hbdef
    obtain ⟨hs0, hs1⟩ :=
      hsin ((i : ℚ) / (n : ℚ) + (step : ℚ) / 100 * frequency)
    have hb0 : 0 ≤ b := by rw [hbdef]; nlinarith
    have hb1 : b ≤ 1 := by rw [hbdef]; nlinarith
    have hmul : ∀ y : ℤ, 0 ≤ y → y ≤ 255 →
        0 ≤ truncInt ((y : ℚ) * b) ∧ truncInt ((y : ℚ) * b) ≤ 255 := by
      intro y hy0 hy1
      have hyq0 : (0 : ℚ) ≤ (y : ℚ) := by exact_mod_cast hy0
      have hyq1 : (y : ℚ) ≤ 255 := by exact_mod_cast hy1
      exact truncInt_bounds _ (mul_nonneg hyq0 hb0) (by nlinarith)
    rcases hxi with rfl | rfl | rfl
    exacts [hmul c.1 ha.1 ha.2, hmul c.2.1 hb.1 hb.2, hmul c.2.2 hc2.1 hc2.2]

/-- Models `math.sin(2π·u)` exactly at the sample point `u = 1/4` that
the counterexample evaluates (`sin(π/2) = 1`); zero elsewhere, staying
inside the sine's range `[-1, 1]`. -/
def sinQuarter : ℚ → ℚ := fun u => if u = 1 / 4 then 1 else 0

/-- Counterexample for C7: the Wave pattern with the documented
amplitude 1.0, a single white pixel and step 25 samples the sine at its
peak (`sin(2π·0.25) = 1`, reproduced exactly by `sinQuarter`), giving
brightness 1.5 and frame `[382, 382, 382]` — outside the byte range. -/
theorem wave_amplitude_overflow :
    WavePattern.generate_frame sinQuarter (255, 255, 255) 1 1 1 25
      = [382, 382, 382] ∧
    ¬(∀ x ∈ WavePattern.generate_frame sinQuarter (255, 255, 255) 1 1 1 25,
        0 ≤ x ∧ x ≤ 255) ∧
    sinQuarter ((0 : ℚ) / 1 + 25 / 100 * 1) = 1 ∧
    Real.sin (2 * Real.pi * ((0 : ℝ) / 1 + 25 / 100 * 1)) = 1 := by
  have hch : waveChunk sinQuarter (255, 255, 255) 1 1 1 25 0
      = [382, 382, 382] := by
    unfold waveChunk sinQuarter
    norm_num [truncInt]
  have hfr : WavePattern.generate_frame sinQuarter (255, 255, 255) 1 1 1 25
      = [382, 382, 382] := by
    have e : WavePattern.generate_frame sinQuarter (255, 255, 255) 1 1 1 25
        = waveChunk sinQuarter (255, 255, 255) 1 1 1 25 0 := rfl
    rw [e, hch]
  refine ⟨hfr, ?_, ?_, ?_⟩
  · intro hall
    have h382 := hall 382 (by rw [hfr]; simp)
    exact absurd h382.2 (by norm_num)
  · rw [show ((0 : ℚ) / 1 + 25 / 100 * 1) = 1 / 4 by norm_num]
    unfold sinQuarter
    rw [if_pos rfl]
  · rw [show ((0 : ℝ) / 1 + 25 / 100 * 1) = 1 / 4 by norm_num,
      show 2 * Real.pi * (1 / 4 : ℝ) = Real.pi / 2 by ring,
      Real.sin_pi_div_two]

/-- C7 (amended): every generated frame has length exactly
`3 × total_pixels`; all elements are bytes in [0,255] for Solid, Chase
and Strobe (given a byte-range color), for Rainbow unconditionally, and
for Wave when the amplitude lies in [0, 0.5] (the sine staying in
[-1,1]).  For amplitudes in (0.5, 1] — permitted by the code — Wave can
leave the byte range (see the counterexample). -/
theorem pattern_frames_well_formed (color : ℤ × ℤ × ℤ)
    (total_pixels step : ℕ) (speed frequency amplitude : ℚ)
    (sin2pi : ℚ → ℚ) (hcolor : byteColor color)
    (hsin : ∀ u, -1 ≤ sin2pi u ∧ sin2pi u ≤ 1)
    (hamp0 : 0 ≤ amplitude) (hamp1 : amplitude ≤ 1 / 2) :
    frameOK (SolidColorPattern.generate_frame color total_pixels)
      total_pixels ∧
    frameOK (ChasePattern.generate_frame color total_pixels step)
      total_pixels ∧
    frameOK (StrobePattern.generate_frame color total_pixels step)
      total_pixels ∧
    frameOK (RainbowPattern.generate_frame speed total_pixels step)
      total_pixels ∧
    frameOK (WavePattern.generate_frame sin2pi color frequency amplitude
      total_pixels step) total_pixels :=
  ⟨solid_frameOK color total_pixels hcolor,
    chase_frameOK color total_pixels step hcolor,
    strobe_frameOK color total_pixels step hcolor,
    rainbow_frameOK speed total_pixels step,
    wave_frameOK sin2pi color frequency amplitude total_pixels step hcolor
      hsin hamp0 hamp1⟩

/-- Witness for C7's amended theorem: all five generators at a concrete
configuration. -/
theorem pattern_frames_well_formed_witness :
    frameOK (SolidColorPattern.generate_frame (10, 20, 30) 2) 2 ∧
    frameOK (ChasePattern.generate_frame (10, 20, 30) 2 3) 2 ∧
    frameOK (StrobePattern.generate_frame (10, 20, 30) 2 3) 2 ∧
    frameOK (RainbowPattern.generate_frame 1 2 3) 2 ∧
    frameOK (WavePattern.generate_frame (fun _ => 0) (10, 20, 30) 1 (1 / 2)
      2 3) 2 :=
  pattern_frames_well_formed (10, 20, 30) 2 3 1 1 (1 / 2) (fun _ => 0)
    (by refine ⟨⟨?_, ?_⟩, ⟨?_, ?_⟩, ⟨?_, ?_⟩⟩ <;> norm_num)
    (fun u => by norm_num) (by norm_num) (by norm_num)

/-- Witness for C5: the general part of the batch-send theorem applied
to a concrete batch over a fully working network. -/
theorem send_multiple_attempts_all_witness :
    (send_multiple_fixtures_go okNet scenarioBatch true).2 = scenarioBatch ∧
    (ArtNetSender.send_multiple_fixtures okNet scenarioBatch = true ↔
      ∀ p ∈ scenarioBatch, trySendFixture okNet p = Except.ok ()) :=
  send_multiple_attempts_all.1 okNet scenarioBatch

/-- Witness for C8's amended theorem at a concrete call. -/
theorem add_fixture_no_validation_witness :
    (add_fixture [] "8.8.8.8" 5 none (some 1)).1
        = [] ++ [(add_fixture [] "8.8.8.8" 5 none (some 1)).2] ∧
    (add_fixture [] "8.8.8.8" 5 none (some 1)).2.pixel_count = 5 ∧
    (add_fixture [] "8.8.8.8" 5 none (some 1)).2.ip = "8.8.8.8" :=
  add_fixture_no_validation [] "8.8.8.8" 5 none (some 1)

end Artnet2Led
